import Mathlib

/-!
# Shallow embedding of `bot.py` (transaction-tracking chat bot)

This file embeds the ledger core of `src/bot.py` in Lean 4 and settles the
frozen claims about it.

Modelling conventions:
* SQLite rows of the `transactions` table become a Lean list of `Txn`
  structures, in insertion (rowid) order; `SELECT SUM(amount) ... WHERE
  chat_id = ?` becomes a filtered list sum (SQL's `NULL`-sum on an empty
  group together with the Python `or 0` yields `0`, matching the sum of an
  empty list).
* Python floats are modelled as rationals (`ℚ`); no claim is about
  floating-point rounding.
* Calendar dates in `YYYY-MM-DD` text form are modelled as naturals
  (ordinal days); the fixed-width text ordering SQLite uses coincides with
  the numeric ordering.
* The process-global dict `user_totals_cache` becomes an association list
  from chat id to cached total, carried in an explicit state record.
* `datetime.now()` becomes an explicit `today` parameter.
-/

/-- `MAX_MSG_LEN = 4096` from `bot.py`. -/
def MAX_MSG_LEN : ℕ := 4096

/-- One row of the `transactions` table:
`(id PK autoincrement, amount, date, category, chat_id)`. -/
structure Txn where
  id : ℕ
  amount : ℚ
  date : ℕ
  category : String
  chat_id : ℤ
  deriving DecidableEq, Repr

/-- The mutable state of the bot process: the two SQLite tables plus the
in-memory `user_totals_cache` dict. `nextId` is the autoincrement counter
of the `transactions` table. -/
structure BotState where
  users : List (ℤ × String)
  txns : List Txn
  cache : List (ℤ × ℚ)
  nextId : ℕ
  deriving DecidableEq, Repr

/-- The state of a fresh process over an empty database. -/
def initState : BotState := ⟨[], [], [], 0⟩

/-- Dict lookup `chat_id in user_totals_cache` / `user_totals_cache[chat_id]`. -/
def cacheGet (c : List (ℤ × ℚ)) (k : ℤ) : Option ℚ :=
  match c with
  | [] => none
  | (k', v) :: rest => if k' = k then some v else cacheGet rest k

/-- Dict assignment `user_totals_cache[chat_id] = v` (unconditional overwrite). -/
def cacheSet (k : ℤ) (v : ℚ) (c : List (ℤ × ℚ)) : List (ℤ × ℚ) :=
  (k, v) :: c.filter (fun p => decide (p.1 ≠ k))

/-- `SELECT SUM(amount) FROM transactions WHERE chat_id = ?`, with the
`or 0` of `get_total` folded in (empty group ⇒ 0). -/
def sumForUser (s : BotState) (cid : ℤ) : ℚ :=
  ((s.txns.filter (fun t => decide (t.chat_id = cid))).map Txn.amount).sum

/-- `add_user(chat_id, role='user')`: `INSERT OR IGNORE INTO users`. -/
def add_user (s : BotState) (cid : ℤ) (role : String) : BotState :=
  if cid ∈ s.users.map Prod.fst then s
  else { s with users := s.users ++ [(cid, role)] }

/-- `get_total(chat_id)`: return the cached total when present; otherwise
query storage, cache the result and return it.  Returns the total together
with the successor state (the cache write on a miss). -/
def get_total (s : BotState) (cid : ℤ) : ℚ × BotState :=
  match cacheGet s.cache cid with
  | some t => (t, s)
  | none =>
      let t := sumForUser s cid
      (t, { s with cache := cacheSet cid t s.cache })

/-- `save_transaction(chat_id, amount, category="general")`: INSERT the row,
then `user_totals_cache[chat_id] = get_total(chat_id)`.  `today` stands for
`datetime.now().strftime("%Y-%m-%d")`. -/
def save_transaction (s : BotState) (cid : ℤ) (amount : ℚ) (category : String)
    (today : ℕ) : BotState :=
  let s1 : BotState :=
    { s with txns := s.txns ++ [⟨s.nextId, amount, today, category, cid⟩],
             nextId := s.nextId + 1 }
  let r := get_total s1 cid
  { r.2 with cache := cacheSet cid r.1 r.2.cache }

/-- The spec's `Ledger.AddTransaction(chat_id, amount) -> new_total`, as the
code realises it in `handle_message`: `save_transaction` followed by
`get_total`, whose value is the total reported back to the user. -/
def addTransaction (s : BotState) (cid : ℤ) (amount : ℚ) (today : ℕ) :
    ℚ × BotState :=
  get_total (save_transaction s cid amount "general" today) cid

/-- `reset_transactions`: `DELETE FROM transactions WHERE chat_id = ?`.
The cache is not touched by this handler. -/
def reset_transactions (s : BotState) (cid : ℤ) : BotState :=
  { s with txns := s.txns.filter (fun t => decide (t.chat_id ≠ cid)) }

/-- `clear_cache`: `user_totals_cache.clear()`. -/
def clear_cache (s : BotState) : BotState :=
  { s with cache := [] }

/-- The spec's `ListTransactions(chat_id)`: rows of the user in insertion
order (`SELECT * FROM transactions WHERE chat_id = ?` of `export_transactions`). -/
def listTransactions (s : BotState) (cid : ℤ) : List Txn :=
  s.txns.filter (fun t => decide (t.chat_id = cid))

/-- The public ledger operations, for stating reachability. `add` carries
the calendar day the insert happens on. -/
inductive Op where
  | add (cid : ℤ) (amount : ℚ) (today : ℕ)
  | getTotal (cid : ℤ)
  | reset (cid : ℤ)
  | clearCache
  deriving DecidableEq, Repr

/-- One public operation, as the handlers run it. -/
def runOp (s : BotState) : Op → BotState
  | .add cid a d => save_transaction s cid a "general" d
  | .getTotal cid => (get_total s cid).2
  | .reset cid => reset_transactions s cid
  | .clearCache => clear_cache s

/-- A sequence of public operations from a given state. -/
def runOps (s : BotState) (ops : List Op) : BotState :=
  ops.foldl runOp s

/-! ## Message handling (`handle_message`) -/

/-- ASCII part of Python's `str.strip` whitespace set. -/
def isSpaceChar (c : Char) : Bool :=
  c == ' ' || c == '\t' || c == '\n' || c == '\r' || c == '\x0b' || c == '\x0c'

/-- `text.strip()`: drop leading and trailing whitespace. -/
def strip (cs : List Char) : List Char :=
  ((cs.dropWhile isSpaceChar).reverse.dropWhile isSpaceChar).reverse

/-- `\d` (ASCII decimal digit). -/
def isDigitChar (c : Char) : Bool := '0' ≤ c && c ≤ '9'

/-- The unsigned part `\d+(\.\d+)?$` of the pattern: one or more digits,
optionally followed by a dot and one or more digits, consuming the rest. -/
def matchesUnsigned (cs : List Char) : Bool :=
  let ds := cs.takeWhile isDigitChar
  let rest := cs.dropWhile isDigitChar
  !ds.isEmpty &&
    (rest.isEmpty ||
      match rest with
      | '.' :: fs => !fs.isEmpty && fs.all isDigitChar
      | _ => false)

/-- `re.match(r'^[+-]?\d+(\.\d+)?$', text)` as a Boolean predicate. -/
def matchesAmount (cs : List Char) : Bool :=
  match cs with
  | '+' :: rest => matchesUnsigned rest
  | '-' :: rest => matchesUnsigned rest
  | _ => matchesUnsigned cs

/-- Value of a digit string, most significant first. -/
def digitsToNat (ds : List Char) : ℕ :=
  ds.foldl (fun n c => 10 * n + (c.toNat - '0'.toNat)) 0

/-- `float(...)` on the unsigned part of a matched numeral, idealised to ℚ. -/
def parseUnsigned (cs : List Char) : ℚ :=
  let intPart := cs.takeWhile isDigitChar
  let rest := cs.dropWhile isDigitChar
  match rest with
  | '.' :: frac => (digitsToNat intPart : ℚ) + (digitsToNat frac : ℚ) / 10 ^ frac.length
  | _ => (digitsToNat intPart : ℚ)

/-- `float(match.group())`: signed numeral to ℚ. -/
def parseAmount (cs : List Char) : ℚ :=
  match cs with
  | '+' :: rest => parseUnsigned rest
  | '-' :: rest => - parseUnsigned rest
  | _ => parseUnsigned cs

/-- The two `reply_text` calls `handle_message` can make: the confirmation
`"Amount added: {amount}\nYour current total: {total}"` and the fixed
rejection `"Please send a valid number starting with + or -."`. -/
inductive Reply where
  | amountAdded (amount total : ℚ)
  | invalidNumber
  deriving DecidableEq, Repr

/-- `handle_message`: strip the text, `add_user(chat_id)`, then either save
the transaction and report the total, or send the fixed rejection.  Note the
`add_user` call precedes the pattern match, exactly as in the source. -/
def handle_message (s : BotState) (cid : ℤ) (text : List Char) (today : ℕ) :
    Reply × BotState :=
  let stripped := strip text
  let s0 := add_user s cid "user"
  if matchesAmount stripped then
    let amount := parseAmount stripped
    let s1 := save_transaction s0 cid amount "general" today
    let r := get_total s1 cid
    (.amountAdded amount r.1, r.2)
  else
    (.invalidNumber, s0)

/-! ## Broadcast (`broadcast_message`) -/

/-- `" ".join(context.args)`. -/
def joinWords : List (List Char) → List Char
  | [] => []
  | [w] => w
  | w :: ws => w ++ ' ' :: joinWords ws

/-- `message.replace("\\n", "\n")`: left-to-right, non-overlapping. -/
def replaceEscapes : List Char → List Char
  | '\\' :: 'n' :: rest => '\n' :: replaceEscapes rest
  | c :: rest => c :: replaceEscapes rest
  | [] => []

/-- `[message[i:i + MAX_MSG_LEN] for i in range(0, len(message), MAX_MSG_LEN)]`. -/
def chunkMessage (s : List Char) : List (List Char) :=
  if h : s = [] then []
  else s.take MAX_MSG_LEN :: chunkMessage (s.drop MAX_MSG_LEN)
termination_by s.length
decreasing_by
  have hpos : 0 < s.length := List.length_pos.mpr h
  simp only [List.length_drop, MAX_MSG_LEN]
  omega

/-- `broadcast_message` with nonempty `args`: the message is joined and
unescaped, then each user row of the `users` table is sent the chunk list in
order (per-recipient send failures are logged and skip nothing that
follows). The result records, per chat id, the texts handed to
`send_message`. -/
def broadcast_message (s : BotState) (args : List (List Char)) :
    List (ℤ × List (List Char)) :=
  if args.isEmpty then []
  else
    let message := replaceEscapes (joinWords args)
    s.users.map (fun u => (u.1, chunkMessage message))

/-! ## Forecast (`train_model` / `predict_future`) -/

/-- Sum of the amounts of all transactions on one date, across all users:
one output row of `SELECT date, SUM(amount) FROM transactions GROUP BY date`. -/
def sumForDate (txns : List Txn) (d : ℕ) : ℚ :=
  ((txns.filter (fun t => decide (t.date = d))).map Txn.amount).sum

/-- The distinct dates of the table, in first-appearance order. -/
def distinctDates (txns : List Txn) : List ℕ :=
  (txns.map Txn.date).dedup

/-- The spec's `DateAggregates()`: `SELECT date, SUM(amount) FROM
transactions GROUP BY date` (the query of `train_model`); SQLite returns the
groups in ascending order of the fixed-width date text. -/
def dateAggregates (txns : List Txn) : List (ℕ × ℚ) :=
  ((distinctDates txns).mergeSort (fun a b => decide (a ≤ b))).map
    (fun d => (d, sumForDate txns d))

/-- Ordinary least squares for `y = slope * x + intercept`, the computation
`LinearRegression().fit` performs, idealised to ℚ. -/
def fitLinReg (pts : List (ℕ × ℚ)) : ℚ × ℚ :=
  let n : ℚ := pts.length
  let sx : ℚ := (pts.map (fun p => (p.1 : ℚ))).sum
  let sy : ℚ := (pts.map Prod.snd).sum
  let sxx : ℚ := (pts.map (fun p => (p.1 : ℚ) * (p.1 : ℚ))).sum
  let sxy : ℚ := (pts.map (fun p => (p.1 : ℚ) * p.2)).sum
  let slope := (n * sxy - sx * sy) / (n * sxx - sx * sx)
  (slope, (sy - slope * sx) / n)

/-- `train_model`: query the date aggregates; when more than one row exists,
fit and `pickle.dump` the model to `model.pkl`, otherwise leave `model.pkl`
as it was (no write happens). `model` is the current content of `model.pkl`
(`none` = file absent). -/
def train_model (txns : List Txn) (model : Option (ℚ × ℚ)) : Option (ℚ × ℚ) :=
  let agg := dateAggregates txns
  if 1 < agg.length then some (fitLinReg agg) else model

/-- `open('model.pkl', 'rb')` raising `FileNotFoundError` when no model was
ever persisted. -/
inductive ForecastError where
  | fileNotFound
  deriving DecidableEq, Repr

/-- `predict_future(date_str)`: load `model.pkl` (failing when absent) and
evaluate the fitted line at the date's ordinal. -/
def predict_future (model : Option (ℚ × ℚ)) (d : ℕ) : Except ForecastError ℚ :=
  match model with
  | none => .error .fileNotFound
  | some m => .ok (m.1 * d + m.2)

/-! ## Storage-failure behaviour (`Database` context manager) -/

/-- `sqlite3.Error`, the spec's `StorageError`. -/
inductive StorageError where
  | sqliteError
  deriving DecidableEq, Repr

/-- `save_transaction` with fault injection on the commit of the INSERT.
When `commitOk = false`, `conn.commit()` raises `sqlite3.Error` inside
`Database.__exit__`, which catches and logs it and returns normally: the
exception never reaches the caller, the uncommitted INSERT is rolled back
when the connection is discarded, and the cache-update line of
`save_transaction` still runs.  The result is `Except` so that the spec's
demand that a `StorageError` propagate is statable; the translation of the
code never produces `Except.error`. -/
def save_transactionE (commitOk : Bool) (s : BotState) (cid : ℤ) (amount : ℚ)
    (category : String) (today : ℕ) : Except StorageError BotState :=
  let s1 : BotState :=
    if commitOk then
      { s with txns := s.txns ++ [⟨s.nextId, amount, today, category, cid⟩],
               nextId := s.nextId + 1 }
    else s
  let r := get_total s1 cid
  Except.ok { r.2 with cache := cacheSet cid r.1 r.2.cache }

/-! ## Helper lemmas -/

theorem cacheGet_cacheSet_self (k : ℤ) (v : ℚ) (c : List (ℤ × ℚ)) :
    cacheGet (cacheSet k v c) k = some v := by
  simp [cacheGet, cacheSet]

theorem get_total_txns_eq (s : BotState) (cid : ℤ) :
    (get_total s cid).2.txns = s.txns := by
  unfold get_total
  cases cacheGet s.cache cid <;> simp

/-- The cache never disagrees with storage: the intended (spec §3) invariant,
as a predicate on states. -/
def cacheConsistent (s : BotState) : Prop :=
  ∀ cid t, cacheGet s.cache cid = some t → t = sumForUser s cid

/-! ## Claims C1–C6 -/

/-- C1: the claim says each `AddTransaction` returns the running sum and a
final `GetTotal` returns the whole sum.  Evaluating the code on the spec's
own scenario `AddTransaction(42, 100); AddTransaction(42, -30)` from a fresh
state: the second call returns `100`, not `70`, and the subsequent
`GetTotal(42)` also returns `100`, while storage holds the true sum `70` —
`save_transaction`'s cache-update line calls `get_total`, which serves the
stale cached value instead of recomputing. -/
theorem C1_running_total_stale_cache :
    (addTransaction initState 42 100 0).1 = 100 ∧
    (addTransaction (addTransaction initState 42 100 0).2 42 (-30) 0).1 = 100 ∧
    (get_total (addTransaction (addTransaction initState 42 100 0).2 42 (-30) 0).2 42).1 = 100 ∧
    sumForUser (addTransaction (addTransaction initState 42 100 0).2 42 (-30) 0).2 42 = 70 := by
  norm_num [addTransaction, save_transaction, get_total, sumForUser, cacheGet,
    cacheSet, initState]

/-- C2: the claim says the cache entry after `AddTransaction` equals the
total recomputed from storage.  After the second add of the scenario the
cache holds `100` while `SumForUser` recomputes `70`: the "recompute" in the
code is a `get_total` call that hits the stale cache. -/
theorem C2_cache_not_recomputed :
    cacheGet (save_transaction (save_transaction initState 42 100 "general" 0)
        42 (-30) "general" 0).cache 42 = some 100 ∧
    sumForUser (save_transaction (save_transaction initState 42 100 "general" 0)
        42 (-30) "general" 0) 42 = 70 ∧
    (100 : ℚ) ≠ 70 := by
  norm_num [save_transaction, get_total, sumForUser, cacheGet, cacheSet, initState]

/-- C3: the claimed invariant — a present cache entry always equals the
storage sum — fails in the state reached by the public operation sequence
`[AddTransaction(42, 100), AddTransaction(42, -30)]` from a fresh state:
the cache holds `100`, storage sums to `70`. -/
theorem C3_invariant_violated_reachable :
    cacheGet (runOps initState [.add 42 100 0, .add 42 (-30) 0]).cache 42 = some 100 ∧
    sumForUser (runOps initState [.add 42 100 0, .add 42 (-30) 0]) 42 = 70 ∧
    (100 : ℚ) ≠ 70 := by
  norm_num [runOps, runOp, save_transaction, get_total, sumForUser, cacheGet,
    cacheSet, initState]

/-- C4: the claim says `GetTotal` returns `0` right after `ResetForUser` and
that the reset writes `0` into the cache.  In the state reached by
`[AddTransaction(42, 100), ResetForUser(42)]` the rows are gone
(`ListTransactions` is empty, as claimed) but `reset_transactions` never
touches the cache, so the entry still holds `100` and `GetTotal(42)`
returns `100`, not `0`. -/
theorem C4_reset_leaves_stale_cache :
    (get_total (runOps initState [.add 42 100 0, .reset 42]) 42).1 = 100 ∧
    cacheGet (runOps initState [.add 42 100 0, .reset 42]).cache 42 = some 100 ∧
    listTransactions (runOps initState [.add 42 100 0, .reset 42]) 42 = [] := by
  norm_num [runOps, runOp, save_transaction, reset_transactions, listTransactions,
    get_total, sumForUser, cacheGet, cacheSet, initState]

/-- C5 counterexample: in the reachable state after
`[AddTransaction(42, 100), AddTransaction(42, -30)]` the value of
`GetTotal(42)` is `100` before `ClearCache()` and `70` after it, so the
cache is not observationally transparent as claimed. -/
theorem C5_clearCache_not_transparent :
    (get_total (runOps initState [.add 42 100 0, .add 42 (-30) 0]) 42).1 = 100 ∧
    (get_total (clear_cache (runOps initState [.add 42 100 0, .add 42 (-30) 0])) 42).1 = 70 ∧
    (100 : ℚ) ≠ 70 := by
  norm_num [runOps, runOp, save_transaction, clear_cache, get_total, sumForUser,
    cacheGet, cacheSet, initState]

/-- C5 amended: `ClearCache()` does not change the value a subsequent
`GetTotal(chat_id)` returns, **provided** every cache entry present in the
pre-clear state agrees with the storage sum for its chat id.  (Reachable
states can violate that consistency, and there the two values differ.) -/
theorem C5_clearCache_transparent_of_consistent (s : BotState) (cid : ℤ)
    (h : cacheConsistent s) :
    (get_total (clear_cache s) cid).1 = (get_total s cid).1 := by
  have hclear : (get_total (clear_cache s) cid).1 = sumForUser s cid := by
    unfold get_total clear_cache
    simp [cacheGet, sumForUser]
  rw [hclear]
  unfold get_total
  cases hc : cacheGet s.cache cid with
  | none => simp
  | some t => simpa using (h cid t hc).symm

/-- Witness for the amended C5 at a concrete consistent state. -/
theorem C5_clearCache_transparent_witness :
    (get_total (clear_cache initState) 7).1 = (get_total initState 7).1 :=
  C5_clearCache_transparent_of_consistent initState 7
    (fun cid t hct => by simp [initState, cacheGet] at hct)

/-- C6 counterexample: run `save_transaction` from a fresh state with the
commit of the INSERT failing.  The call completes with `Except.ok` (the
`sqlite3.Error` was logged inside `Database.__exit__` and never surfaced),
and the Totals Cache entry for chat id 42 went from absent to `some 0` —
the cache-update line still ran — contradicting both parts of the claim. -/
theorem C6_storage_error_swallowed :
    save_transactionE false initState 42 100 "general" 0 =
      Except.ok { users := [], txns := [], cache := [(42, 0)], nextId := 0 } ∧
    cacheGet initState.cache 42 = none := by
  norm_num [save_transactionE, get_total, sumForUser, cacheGet, cacheSet, initState]

/-- C6 amended: when the commit of the INSERT fails, no error reaches the
caller (`Except.ok` always), the durable transaction table is unchanged, and
the cache entry for the chat id afterwards holds the pre-call `get_total`
value — computed without the failed insert — rather than being left
untouched. -/
theorem C6_commit_failure_behavior (s : BotState) (cid : ℤ) (a : ℚ)
    (c : String) (d : ℕ) :
    ∃ s', save_transactionE false s cid a c d = Except.ok s' ∧
      s'.txns = s.txns ∧
      cacheGet s'.cache cid = some (get_total s cid).1 := by
  refine ⟨_, rfl, ?_, ?_⟩
  · simpa [save_transactionE] using get_total_txns_eq s cid
  · simp only [save_transactionE]
    exact cacheGet_cacheSet_self cid (get_total s cid).1 (get_total s cid).2.cache

/-! ## Claims C7, C8, C10 -/

/-- C7 counterexample: one distinct date in the table and a previously
persisted model `(slope, intercept) = (2, 3)`.  `train_model` skips fitting
and leaves `model.pkl` as it was, and `predict_future` then *succeeds*,
silently returning `2·20 + 3 = 43` from the stale model instead of failing
with a model-unavailable error. -/
theorem C7_stale_model_used :
    train_model [⟨0, 5, 10, "general", 42⟩] (some (2, 3)) = some (2, 3) ∧
    predict_future (train_model [⟨0, 5, 10, "general", 42⟩] (some (2, 3))) 20 =
      Except.ok 43 := by
  norm_num [train_model, dateAggregates, distinctDates, sumForDate,
    predict_future]

/-- C7 amended: with fewer than 2 distinct dates, fitting is skipped and the
persisted model is left exactly as it was; a subsequent prediction fails
(with the file-not-found condition) only when no model was ever persisted —
when a stale model exists, prediction silently uses it. -/
theorem C7_no_fit_under_two_dates (txns : List Txn) (model : Option (ℚ × ℚ))
    (d : ℕ) (h : (dateAggregates txns).length < 2) :
    train_model txns model = model ∧
    (model = none →
      predict_future (train_model txns model) d =
        Except.error ForecastError.fileNotFound) := by
  have hfit : train_model txns model = model := by
    unfold train_model
    have : ¬ (1 < (dateAggregates txns).length) := by omega
    simp [this]
  refine ⟨hfit, fun hm => ?_⟩
  rw [hfit, hm]
  rfl

/-- Witness for the amended C7 on the empty table with no persisted model. -/
theorem C7_no_fit_witness :
    train_model [] none = none ∧
    (none = (none : Option (ℚ × ℚ)) →
      predict_future (train_model [] none) 5 =
        Except.error ForecastError.fileNotFound) :=
  C7_no_fit_under_two_dates [] none 5
    (by norm_num [dateAggregates, distinctDates])

/-- C8 counterexample: the invalid message `"abc"` from a fresh chat id 99
draws the fixed rejection reply, but the state does change — `add_user` runs
before the pattern match, so the `users` table gains the row `(99, "user")`. -/
theorem C8_invalid_input_still_registers_user :
    (handle_message initState 99 ['a', 'b', 'c'] 0).1 = Reply.invalidNumber ∧
    (handle_message initState 99 ['a', 'b', 'c'] 0).2.users = [(99, "user")] ∧
    initState.users = [] := by
  decide

/-- C8 amended: for every message whose *stripped* text fails the pattern
`^[+-]?\d+(\.\d+)?$`, the handler replies with the fixed rejection message,
inserts no transaction row and changes no cache entry, but it does run
`add_user(chat_id)` first, so the `users` table may gain a row for a new
chat id. -/
theorem C8_invalid_input_behavior (s : BotState) (cid : ℤ) (text : List Char)
    (d : ℕ) (h : matchesAmount (strip text) = false) :
    (handle_message s cid text d).1 = Reply.invalidNumber ∧
    (handle_message s cid text d).2.txns = s.txns ∧
    (handle_message s cid text d).2.cache = s.cache ∧
    (handle_message s cid text d).2 = add_user s cid "user" := by
  by_cases hmem : cid ∈ s.users.map Prod.fst <;>
    simp [handle_message, h, add_user, hmem]

/-- Witness for the amended C8 on the message `"abc"`. -/
theorem C8_invalid_input_witness :
    (handle_message initState 99 ['a', 'b', 'c'] 0).1 = Reply.invalidNumber ∧
    (handle_message initState 99 ['a', 'b', 'c'] 0).2.txns = initState.txns ∧
    (handle_message initState 99 ['a', 'b', 'c'] 0).2.cache = initState.cache ∧
    (handle_message initState 99 ['a', 'b', 'c'] 0).2 =
      add_user initState 99 "user" :=
  C8_invalid_input_behavior initState 99 ['a', 'b', 'c'] 0 (by decide)

/-- Every chunk `message[i:i + MAX_MSG_LEN]` has at most `MAX_MSG_LEN`
characters. -/
theorem chunkMessage_length_le (s : List Char) :
    ∀ c ∈ chunkMessage s, c.length ≤ MAX_MSG_LEN := by
  induction s using chunkMessage.induct with
  | case1 => simp [chunkMessage]
  | case2 s h ih =>
    rw [chunkMessage]
    simp only [h, dite_false]
    intro c hc
    rcases List.mem_cons.mp hc with hc | hc
    · subst hc
      simpa using List.length_take_le MAX_MSG_LEN s
    · exact ih c hc

/-- The chunks concatenate back, in order, to the whole message. -/
theorem chunkMessage_flatten (s : List Char) : (chunkMessage s).flatten = s := by
  induction s using chunkMessage.induct with
  | case1 => simp [chunkMessage]
  | case2 s h ih =>
    rw [chunkMessage]
    simp only [h, dite_false, List.flatten_cons, ih]
    exact List.take_append_drop _ _

/-- C10: for a nonempty argument list and any chat id present in the `users`
table, the broadcast hands that chat id a sequence of chunks of at most
`MAX_MSG_LEN` characters each whose in-order concatenation is exactly the
joined message with literal `\n` sequences replaced by newlines. -/
theorem C10_broadcast_chunks (s : BotState) (args : List (List Char))
    (cid : ℤ) (role : String) (hargs : args ≠ []) (hu : (cid, role) ∈ s.users) :
    ∃ chunks, (cid, chunks) ∈ broadcast_message s args ∧
      chunks.flatten = replaceEscapes (joinWords args) ∧
      ∀ c ∈ chunks, c.length ≤ MAX_MSG_LEN := by
  refine ⟨chunkMessage (replaceEscapes (joinWords args)), ?_, chunkMessage_flatten _,
    chunkMessage_length_le _⟩
  unfold broadcast_message
  have hne : args.isEmpty = false := by
    cases args with
    | nil => exact absurd rfl hargs
    | cons a l => rfl
  rw [hne]
  simp only [Bool.false_eq_true, if_false]
  exact List.mem_map.mpr ⟨(cid, role), hu, rfl⟩

/-- Witness for C10: one user, message `"hi"`. -/
theorem C10_broadcast_witness :
    ∃ chunks,
      ((5 : ℤ), chunks) ∈
        broadcast_message ⟨[(5, "user")], [], [], 0⟩ [['h', 'i']] ∧
      chunks.flatten = replaceEscapes (joinWords [['h', 'i']]) ∧
      ∀ c ∈ chunks, c.length ≤ MAX_MSG_LEN :=
  C10_broadcast_chunks ⟨[(5, "user")], [], [], 0⟩ [['h', 'i']] 5 "user"
    (by decide) (by decide)

/-! ## Claim C9: correctness of the date aggregation -/

/-- Splitting a sum of mapped amounts along a Boolean filter. -/
theorem sum_map_filter_split (p : Txn → Bool) (l : List Txn) :
    ((l.filter p).map Txn.amount).sum
      + ((l.filter (fun t => !p t)).map Txn.amount).sum
      = (l.map Txn.amount).sum := by
  induction l with
  | nil => simp
  | cons t l ih =>
    cases hp : p t <;>
      · simp only [List.filter_cons, hp, Bool.not_true, Bool.not_false,
          List.map_cons, List.sum_cons, if_false, if_true,
          Bool.false_eq_true, Bool.true_eq_false, ite_true, ite_false]
        rw [← ih]
        ring

/-- Summing the per-date group totals over any duplicate-free list of keys
that covers every date in the table yields the grand total of all amounts. -/
theorem sum_over_keys (keys : List ℕ) :
    ∀ l : List Txn, keys.Nodup → (∀ t ∈ l, t.date ∈ keys) →
      (keys.map (sumForDate l)).sum = (l.map Txn.amount).sum := by
  induction keys with
  | nil =>
    intro l _ hall
    cases l with
    | nil => simp
    | cons t ts => exact absurd (hall t (by simp)) (List.not_mem_nil _)
  | cons d ks ih =>
    intro l hnd hall
    have hdks : d ∉ ks := (List.nodup_cons.mp hnd).1
    have hndks : ks.Nodup := (List.nodup_cons.mp hnd).2
    have hA : ∀ k ∈ ks,
        sumForDate l k = sumForDate (l.filter (fun t => !decide (t.date = d))) k := by
      intro k hk
      have hkd : ¬ (k = d) := fun hkd => hdks (hkd ▸ hk)
      unfold sumForDate
      rw [List.filter_filter]
      have : ∀ t ∈ l,
          (decide (t.date = k) && !decide (t.date = d)) = decide (t.date = k) := by
        intro t _
        by_cases h : t.date = k
        · simp [h, hkd]
        · simp [h]
      rw [List.filter_congr this]
    have hall' : ∀ t ∈ l.filter (fun t => !decide (t.date = d)), t.date ∈ ks := by
      intro t ht
      rw [List.mem_filter] at ht
      have h2 : ¬ (t.date = d) := by simpa using ht.2
      rcases List.mem_cons.mp (hall t ht.1) with h | h
      · exact absurd h h2
      · exact h
    have hsplit := sum_map_filter_split (fun t => decide (t.date = d)) l
    calc ((d :: ks).map (sumForDate l)).sum
        = sumForDate l d + (ks.map (sumForDate l)).sum := by simp
      _ = sumForDate l d
            + (ks.map (sumForDate (l.filter (fun t => !decide (t.date = d))))).sum := by
          rw [List.map_congr_left hA]
      _ = sumForDate l d
            + ((l.filter (fun t => !decide (t.date = d))).map Txn.amount).sum := by
          rw [ih _ hndks hall']
      _ = (l.map Txn.amount).sum := by
          rw [← hsplit]; unfold sumForDate; ring

/-- C9: `DateAggregates()` has exactly one row per distinct date of the
table (duplicate-free keys that are present iff the date occurs), the rows
are ordered by date strictly ascending, and the returned group totals sum to
the sum of all individual transaction amounts across all users. -/
theorem C9_dateAggregates_correct (txns : List Txn) :
    ((dateAggregates txns).map Prod.fst).Nodup ∧
    List.Pairwise (fun a b : ℕ => a < b) ((dateAggregates txns).map Prod.fst) ∧
    (∀ d : ℕ, d ∈ (dateAggregates txns).map Prod.fst ↔ d ∈ txns.map Txn.date) ∧
    ((dateAggregates txns).map Prod.snd).sum = (txns.map Txn.amount).sum := by
  have hkeys : (dateAggregates txns).map Prod.fst
      = (distinctDates txns).mergeSort (fun a b => decide (a ≤ b)) := by
    unfold dateAggregates
    rw [List.map_map]
    exact List.map_id _
  have hperm : List.Perm ((distinctDates txns).mergeSort (fun a b => decide (a ≤ b)))
      (distinctDates txns) := List.mergeSort_perm _ _
  have hnodupD : (distinctDates txns).Nodup := List.nodup_dedup _
  have hnodup : ((distinctDates txns).mergeSort (fun a b => decide (a ≤ b))).Nodup :=
    hperm.nodup_iff.mpr hnodupD
  have htrans : ∀ a b c : ℕ,
      decide (a ≤ b) = true → decide (b ≤ c) = true → decide (a ≤ c) = true := by
    intro a b c h1 h2
    simp only [decide_eq_true_eq] at h1 h2 ⊢
    omega
  have htotal : ∀ a b : ℕ, (decide (a ≤ b) || decide (b ≤ a)) = true := by
    intro a b
    simp only [Bool.or_eq_true, decide_eq_true_eq]
    exact Nat.le_total a b
  have hsorted := @List.sorted_mergeSort ℕ (fun a b => decide (a ≤ b))
    htrans htotal (distinctDates txns)
  have hle : List.Pairwise (fun a b : ℕ => a ≤ b)
      ((distinctDates txns).mergeSort (fun a b => decide (a ≤ b))) :=
    hsorted.imp (fun h => by simpa using h)
  have hlt : List.Pairwise (fun a b : ℕ => a < b)
      ((distinctDates txns).mergeSort (fun a b => decide (a ≤ b))) :=
    (hnodup.and hle).imp (fun h => lt_of_le_of_ne h.2 h.1)
  have hmem : ∀ d : ℕ,
      d ∈ (distinctDates txns).mergeSort (fun a b => decide (a ≤ b))
        ↔ d ∈ txns.map Txn.date := by
    intro d
    rw [List.mem_mergeSort]
    exact List.mem_dedup
  have hsum : ((dateAggregates txns).map Prod.snd).sum = (txns.map Txn.amount).sum := by
    unfold dateAggregates
    rw [List.map_map]
    have hmapped : (((distinctDates txns).mergeSort (fun a b => decide (a ≤ b))).map
          (Prod.snd ∘ fun d => (d, sumForDate txns d))).sum
        = (((distinctDates txns).mergeSort (fun a b => decide (a ≤ b))).map
          (sumForDate txns)).sum := rfl
    rw [hmapped, (hperm.map (sumForDate txns)).sum_eq]
    exact sum_over_keys (distinctDates txns) txns hnodupD
      (fun t ht => List.mem_dedup.mpr (List.mem_map_of_mem Txn.date ht))
  refine ⟨?_, ?_, ?_, hsum⟩
  · rw [hkeys]; exact hnodup
  · rw [hkeys]; exact hlt
  · intro d; rw [hkeys]; exact hmem d
